import Mathlib

/-!
Verification of the devflow CLI (github.com/Ilia01/devflow) against its
natural-language specification.

Shallow embedding conventions:
* A Go string is modelled as `List Char` (a list of runes); where the Go
  byte-oriented `len` matters we use the UTF-8 byte size `utf8Len`.
* Fallible Go functions returning `(T, error)` become `Except GoErr T`.
* The effectful command handlers in `internal/app/commands.go` are modelled
  as pure functions from an environment record (the results each external
  gateway call would produce in that invocation) to a result record that
  carries the returned error, the warning-level messages printed, and the
  ordered trace of externally visible effects (tracker calls, branch
  creation, push, PR/MR creation).
-/

namespace Devflow

/-- Convert a Lean string literal to the `List Char` string model. -/
def str (s : String) : List Char := s.toList

/-- UTF-8 byte length of a rune string: the Go `len` on a `string`. -/
def utf8Len (s : List Char) : Nat := (s.map Char.utf8Size).sum

/-- ASCII fragment of the Go `unicode.IsLetter` (Unicode category L).
On the ASCII range the two agree; the handlers instantiate the
letter classifier with this function, while the correlator theorems are
stated for an arbitrary classifier. -/
def goIsLetter (c : Char) : Bool := c.isAlpha

/-- ASCII fragment of the Go `unicode.IsDigit`. -/
def goIsDigit (c : Char) : Bool := c.isDigit

/-- The Go `strings.ToLower`, per rune (ASCII fragment). -/
def goToLower (c : Char) : Char := c.toLower

/-- The Go `strings.ToUpper`, per rune (ASCII fragment). -/
def goToUpper (c : Char) : Char := c.toUpper

/-- The rune predicate passed to `strings.FieldsFunc` in
`FormatBranchName` (branch.go lines 11-17): the space character and the
six punctuation characters of the `switch`. -/
def isSplitChar (c : Char) : Bool :=
  c = ' ' || c = ':' || c = '!' || c = '?' || c = ',' || c = ';' || c = '.'

/-- Accumulator form of `strings.FieldsFunc`: `cur` is the (reversed)
field currently being scanned. Fields are the maximal runs of runes on
which `p` is false; empty fields are not produced. -/
def fieldsFuncAux (p : Char → Bool) : List Char → List Char → List (List Char)
  | [], cur => if cur.isEmpty then [] else [cur.reverse]
  | c :: rest, cur =>
    if p c then
      if cur.isEmpty then fieldsFuncAux p rest []
      else cur.reverse :: fieldsFuncAux p rest []
    else fieldsFuncAux p rest (c :: cur)

/-- The Go `strings.FieldsFunc`. -/
def fieldsFunc (p : Char → Bool) (s : List Char) : List (List Char) :=
  fieldsFuncAux p s []

/-- The per-word cleaning loop of `FormatBranchName` (branch.go lines
20-26): keep exactly the runes that are letters or digits. -/
def cleanWord (isL isD : Char → Bool) (w : List Char) : List Char :=
  w.filter (fun c => isL c || isD c)

/-- The token-collection loop of `FormatBranchName` (branch.go lines
19-34): clean each word, append it when its byte length exceeds 1, and
stop as soon as five tokens have been collected. -/
def collectCleaned (isL isD : Char → Bool) :
    List (List Char) → List (List Char) → List (List Char)
  | [], cleaned => cleaned
  | w :: rest, cleaned =>
    let candidate := cleanWord isL isD w
    let cleaned' := if 1 < utf8Len candidate then cleaned ++ [candidate] else cleaned
    if cleaned'.length = 5 then cleaned' else collectCleaned isL isD rest cleaned'

/-- The Go `strings.Join` specialised to a one-rune separator. -/
def joinWith (sep : Char) : List (List Char) → List Char
  | [] => []
  | [w] => w
  | w :: v :: rest => w ++ sep :: joinWith sep (v :: rest)

/-- Embeds `utils.FormatBranchName` (branch.go lines 9-41), with the rune
classifiers for letters and digits as parameters. -/
def formatBranchName (isL isD : Char → Bool)
    (pfx ticketID summary : List Char) : List Char :=
  let lowered := summary.map goToLower
  let words := fieldsFunc isSplitChar lowered
  let cleaned := collectCleaned isL isD words []
  if cleaned.length = 0 then pfx ++ '/' :: ticketID
  else pfx ++ '/' :: (ticketID ++ '/' :: joinWith '_' cleaned)

/-- Specialization of `utils.FormatBranchName` to the concrete (ASCII) classifiers; this
is the function the `start` handler calls. -/
def goFormatBranchName (pfx ticketID summary : List Char) : List Char :=
  formatBranchName goIsLetter goIsDigit pfx ticketID summary

/-- Errors returned by the embedded Go functions. `correlation branch`
stands for the formatted "branch does not contain a ticket id"
error value of `ExtractTicketID`; `uncommittedChanges` for the
dedicated `errors.New` in `handleDone`; `msg` for any other error
value. -/
inductive GoErr where
  | correlation (branch : List Char)
  | uncommittedChanges
  | msg (s : List Char)
deriving DecidableEq, Repr

/-- Accumulator form of the Go `strings.Split` for a one-rune separator:
`cur` holds the (reversed) segment currently being scanned. -/
def goSplitAux (sep : Char) : List Char → List Char → List (List Char)
  | [], cur => [cur.reverse]
  | c :: rest, cur =>
    if c = sep then cur.reverse :: goSplitAux sep rest []
    else goSplitAux sep rest (c :: cur)

/-- The Go `strings.Split` for a one-rune separator (the only separators
`ExtractTicketID` uses are `"/"` and `"-"`). -/
def goSplit (sep : Char) (s : List Char) : List (List Char) :=
  goSplitAux sep s []

/-- Embeds `utils.ExtractTicketID` (branch.go lines 43-65). -/
def extractTicketID (branch : List Char) : Except GoErr (List Char) :=
  let parts := goSplit '/' branch
  if parts.length < 2 then .error (.correlation branch)
  else
    let ticketPart := parts.getD 1 []
    if ticketPart.contains '-' = false then .error (.correlation branch)
    else
      let segments := goSplit '-' ticketPart
      if segments.length < 2 then .error (.correlation branch)
      else
        let ticketID := joinWith '-' (segments.take 2)
        if ticketID = [] then .error (.correlation branch)
        else .ok ticketID

/-! ### Lemmas about the split/join string helpers -/

theorem goSplitAux_no_sep (sep : Char) (a : List Char) :
    ∀ cur, sep ∉ a → goSplitAux sep a cur = [cur.reverse ++ a] := by
  induction a with
  | nil => intro cur _; simp [goSplitAux]
  | cons c rest ih =>
    intro cur h
    have hc : ¬ c = sep := fun hcs => h (hcs ▸ List.mem_cons_self c rest)
    have hr : sep ∉ rest := fun hm => h (List.mem_cons_of_mem _ hm)
    simp [goSplitAux, hc, ih _ hr]

theorem goSplitAux_sep_append (sep : Char) (a b : List Char) :
    ∀ cur, sep ∉ a →
      goSplitAux sep (a ++ sep :: b) cur = (cur.reverse ++ a) :: goSplitAux sep b [] := by
  induction a with
  | nil => intro cur _; simp [goSplitAux]
  | cons c rest ih =>
    intro cur h
    have hc : ¬ c = sep := fun hcs => h (hcs ▸ List.mem_cons_self c rest)
    have hr : sep ∉ rest := fun hm => h (List.mem_cons_of_mem _ hm)
    simp [goSplitAux, hc, ih _ hr]

theorem goSplit_no_sep (sep : Char) (a : List Char) (h : sep ∉ a) :
    goSplit sep a = [a] := by
  simp [goSplit, goSplitAux_no_sep sep a [] h]

theorem goSplit_append (sep : Char) (a b : List Char) (h : sep ∉ a) :
    goSplit sep (a ++ sep :: b) = a :: goSplit sep b := by
  simp [goSplit, goSplitAux_sep_append sep a b [] h]

theorem goSplitAux_length_pos (sep : Char) (s : List Char) :
    ∀ cur, 1 ≤ (goSplitAux sep s cur).length := by
  induction s with
  | nil => intro cur; simp [goSplitAux]
  | cons c rest ih =>
    intro cur
    by_cases hc : c = sep
    · simp [goSplitAux, hc]
    · simpa [goSplitAux, hc] using ih (c :: cur)

theorem goSplitAux_length_ge_two (sep : Char) (s : List Char) (hs : sep ∈ s) :
    ∀ cur, 2 ≤ (goSplitAux sep s cur).length := by
  induction s with
  | nil => exact absurd hs (List.not_mem_nil sep)
  | cons c rest ih =>
    intro cur
    by_cases hc : c = sep
    · rw [goSplitAux, if_pos hc]
      have := goSplitAux_length_pos sep rest []
      simp only [List.length_cons]
      omega
    · have hr : sep ∈ rest := by
        rcases List.mem_cons.mp hs with h1 | h1
        · exact absurd h1.symm hc
        · exact h1
      simpa [goSplitAux, hc] using ih hr (c :: cur)

theorem goSplit_length_ge_two (sep : Char) (s : List Char) (hs : sep ∈ s) :
    2 ≤ (goSplit sep s).length :=
  goSplitAux_length_ge_two sep s hs []

theorem mem_joinWith (sep : Char) (ls : List (List Char)) (c : Char)
    (h : c ∈ joinWith sep ls) : c = sep ∨ ∃ w ∈ ls, c ∈ w := by
  induction ls with
  | nil => simp [joinWith] at h
  | cons w rest ih =>
    cases rest with
    | nil =>
      simp [joinWith] at h
      exact Or.inr ⟨w, by simp, h⟩
    | cons v rest' =>
      rw [joinWith] at h
      rcases List.mem_append.mp h with h1 | h1
      · exact Or.inr ⟨w, by simp, h1⟩
      · rcases List.mem_cons.mp h1 with h2 | h2
        · exact Or.inl h2
        · rcases ih h2 with h3 | ⟨u, hu, hcu⟩
          · exact Or.inl h3
          · exact Or.inr ⟨u, List.mem_cons_of_mem _ hu, hcu⟩

theorem mem_collectCleaned (isL isD : Char → Bool) (words : List (List Char)) :
    ∀ acc w, w ∈ collectCleaned isL isD words acc →
      w ∈ acc ∨ ∃ w0, w = cleanWord isL isD w0 := by
  induction words with
  | nil => intro acc w h; exact Or.inl (by simpa [collectCleaned] using h)
  | cons u rest ih =>
    intro acc w h
    rw [collectCleaned] at h
    by_cases h5 : (if 1 < utf8Len (cleanWord isL isD u) then
        acc ++ [cleanWord isL isD u] else acc).length = 5
    · rw [if_pos h5] at h
      by_cases hu : 1 < utf8Len (cleanWord isL isD u)
      · rw [if_pos hu] at h
        rcases List.mem_append.mp h with h1 | h1
        · exact Or.inl h1
        · exact Or.inr ⟨u, (List.mem_singleton.mp h1)⟩
      · rw [if_neg hu] at h; exact Or.inl h
    · rw [if_neg h5] at h
      rcases ih _ w h with h1 | h1
      · by_cases hu : 1 < utf8Len (cleanWord isL isD u)
        · rw [if_pos hu] at h1
          rcases List.mem_append.mp h1 with h2 | h2
          · exact Or.inl h2
          · exact Or.inr ⟨u, (List.mem_singleton.mp h2)⟩
        · rw [if_neg hu] at h1; exact Or.inl h1
      · exact Or.inr h1

theorem mem_cleanWord (isL isD : Char → Bool) (w : List Char) (c : Char)
    (h : c ∈ cleanWord isL isD w) : isL c = true ∨ isD c = true := by
  have := List.of_mem_filter h
  rcases Bool.or_eq_true_iff.mp this with h1 | h1
  · exact Or.inl h1
  · exact Or.inr h1

/-- A rune that the classifiers both reject never occurs in the slug
segment built by `formatBranchName`. -/
theorem not_mem_slug (isL isD : Char → Bool) (c : Char)
    (hL : isL c = false) (hD : isD c = false) (hc : ¬ c = '_')
    (words : List (List Char)) :
    c ∉ joinWith '_' (collectCleaned isL isD words []) := by
  intro hmem
  rcases mem_joinWith '_' _ c hmem with h1 | ⟨w, hw, hcw⟩
  · exact hc h1
  · rcases mem_collectCleaned isL isD words [] w hw with h2 | ⟨w0, rfl⟩
    · simp at h2
    · rcases mem_cleanWord isL isD w0 c hcw with h3 | h3
      · rw [hL] at h3; exact Bool.false_ne_true h3
      · rw [hD] at h3; exact Bool.false_ne_true h3

theorem contains_eq_true_of_mem {l : List Char} {c : Char} (h : c ∈ l) :
    l.contains c = true := by
  simpa [List.contains, List.elem_iff] using h

theorem not_contains_of_not_mem {l : List Char} {c : Char} (h : c ∉ l) :
    l.contains c = false := by
  rcases hb : l.contains c with _ | _
  · rfl
  · exact absurd (by simpa [List.contains, List.elem_iff] using hb) h

theorem joinWith_take_two_ne_nil (sep : Char) (segs : List (List Char))
    (h : 2 ≤ segs.length) : joinWith sep (segs.take 2) ≠ [] := by
  match segs, h with
  | s0 :: s1 :: rest, _ => simp [joinWith]

/-- When the second `/`-segment of a branch has the shape
`alpha ++ "-" ++ digits` with neither side containing `-`,
`ExtractTicketID` succeeds with exactly that segment. -/
theorem extract_second_segment (branch alpha digits : List Char)
    (hlen : 2 ≤ (goSplit '/' branch).length)
    (hseg : (goSplit '/' branch).getD 1 [] = alpha ++ '-' :: digits)
    (hma : '-' ∉ alpha) (hmd : '-' ∉ digits) :
    extractTicketID branch = .ok (alpha ++ '-' :: digits) := by
  have hnlt : ¬ (goSplit '/' branch).length < 2 := by omega
  have hmem : '-' ∈ (goSplit '/' branch).getD 1 [] := by
    rw [hseg]; exact List.mem_append_right _ (List.mem_cons_self _ _)
  have hcont : ((goSplit '/' branch).getD 1 []).contains '-' = true :=
    contains_eq_true_of_mem hmem
  have hsegs : goSplit '-' ((goSplit '/' branch).getD 1 []) = [alpha, digits] := by
    rw [hseg, goSplit_append '-' alpha digits hma, goSplit_no_sep '-' digits hmd]
  rw [extractTicketID]
  simp only [hnlt, if_false, hcont, Bool.true_eq_false, if_false, hsegs]
  simp [joinWith]

/-- C8 (confirmed): `ExtractTicketID` fails with the correlation error
when the branch splits on `/` into fewer than two segments or the second
segment has no `-`; otherwise it returns the first two `-`-joined
sub-segments of the second segment. `extractTicketID "main"` fails. -/
theorem c8_extract_structure :
    (∀ branch : List Char,
      ((goSplit '/' branch).length < 2 →
        extractTicketID branch = .error (.correlation branch))
      ∧ (2 ≤ (goSplit '/' branch).length →
        (('-' ∉ (goSplit '/' branch).getD 1 []) →
          extractTicketID branch = .error (.correlation branch))
        ∧ (('-' ∈ (goSplit '/' branch).getD 1 []) →
          extractTicketID branch =
            .ok (joinWith '-'
              ((goSplit '-' ((goSplit '/' branch).getD 1 [])).take 2)))))
    ∧ extractTicketID (str "main") = .error (.correlation (str "main")) := by
  refine ⟨fun branch => ⟨fun hlt => ?_, fun h2 => ⟨fun hnm => ?_, fun hmem => ?_⟩⟩, by rfl⟩
  · rw [extractTicketID]; simp only [hlt, if_true]
  · have hnlt : ¬ (goSplit '/' branch).length < 2 := by omega
    have hcont := not_contains_of_not_mem hnm
    rw [extractTicketID]
    simp only [hnlt, if_false, hcont, if_true]
  · have hnlt : ¬ (goSplit '/' branch).length < 2 := by omega
    have hcont := contains_eq_true_of_mem hmem
    have hslen : 2 ≤ (goSplit '-' ((goSplit '/' branch).getD 1 [])).length :=
      goSplit_length_ge_two '-' _ hmem
    have hsnlt : ¬ (goSplit '-' ((goSplit '/' branch).getD 1 [])).length < 2 := by omega
    have hjne := joinWith_take_two_ne_nil '-' _ hslen
    rw [extractTicketID]
    simp only [hnlt, if_false, hcont, Bool.true_eq_false, hsnlt, hjne, if_false]

/-- Closed witness for `c8_extract_structure`: the branch
`feat/AB-12/x` has at least two segments and extraction succeeds. -/
theorem c8_extract_structure_witness :
    2 ≤ (goSplit '/' (str "feat/AB-12/x")).length
    ∧ extractTicketID (str "feat/AB-12/x") =
        .ok (joinWith '-'
          ((goSplit '-' ((goSplit '/' (str "feat/AB-12/x")).getD 1 [])).take 2)) :=
  ⟨by decide,
    ((c8_extract_structure.1 (str "feat/AB-12/x")).2 (by decide)).2 (by decide)⟩

/-- C1 (amended): for every prefix that does not contain `/`, every
ticket ID of the form ALPHA-DIGITS (letters as classified by `isL`,
digits as classified by `isD`, where neither classifier accepts `/` or
`-`), and every summary, `extractTicketID` recovers exactly the ticket
ID from `formatBranchName`. The original claim, which quantified over
all prefixes, fails when the prefix itself contains `/`. -/
theorem c1_roundtrip (isL isD : Char → Bool)
    (hL : isL '/' = false) (hD : isD '/' = false)
    (hLh : isL '-' = false) (hDh : isD '-' = false)
    (pfx alpha digits summary : List Char)
    (hp : '/' ∉ pfx)
    (hac : ∀ c ∈ alpha, isL c = true) (hdc : ∀ c ∈ digits, isD c = true) :
    extractTicketID (formatBranchName isL isD pfx (alpha ++ '-' :: digits) summary)
      = .ok (alpha ++ '-' :: digits) := by
  have hsa : '/' ∉ alpha := fun h => by
    have := hac '/' h; rw [hL] at this; exact Bool.false_ne_true this
  have hsd : '/' ∉ digits := fun h => by
    have := hdc '/' h; rw [hD] at this; exact Bool.false_ne_true this
  have hma : '-' ∉ alpha := fun h => by
    have := hac '-' h; rw [hLh] at this; exact Bool.false_ne_true this
  have hmd : '-' ∉ digits := fun h => by
    have := hdc '-' h; rw [hDh] at this; exact Bool.false_ne_true this
  have htid : '/' ∉ alpha ++ '-' :: digits := by
    intro h
    rcases List.mem_append.mp h with h | h
    · exact hsa h
    · rcases List.mem_cons.mp h with h | h
      · exact absurd h (by decide)
      · exact hsd h
  simp only [formatBranchName]
  set cleaned :=
    collectCleaned isL isD (fieldsFunc isSplitChar (summary.map goToLower)) [] with hcl
  by_cases h0 : cleaned.length = 0
  · rw [if_pos h0]
    have hparts : goSplit '/' (pfx ++ '/' :: (alpha ++ '-' :: digits))
        = [pfx, alpha ++ '-' :: digits] := by
      rw [goSplit_append '/' pfx _ hp, goSplit_no_sep '/' _ htid]
    exact extract_second_segment _ alpha digits
      (by rw [hparts]; simp) (by rw [hparts]; rfl) hma hmd
  · rw [if_neg h0]
    have hslug : '/' ∉ joinWith '_' cleaned := by
      rw [hcl]; exact not_mem_slug isL isD '/' hL hD (by decide) _
    have hparts : goSplit '/'
          (pfx ++ '/' :: ((alpha ++ '-' :: digits) ++ '/' :: joinWith '_' cleaned))
        = [pfx, alpha ++ '-' :: digits, joinWith '_' cleaned] := by
      rw [goSplit_append '/' pfx _ hp, goSplit_append '/' _ _ htid,
        goSplit_no_sep '/' _ hslug]
    exact extract_second_segment _ alpha digits
      (by rw [hparts]; simp) (by rw [hparts]; rfl) hma hmd

/-- C1 counterexample: with the prefix `a/b` (which contains `/`), the
round-trip fails — extraction returns the correlation error, not the
ticket ID, so the claim is false when quantified over all prefixes. -/
theorem c1_counterexample :
    extractTicketID (goFormatBranchName (str "a/b") (str "AB-1") (str "")) =
      .error (.correlation (str "a/b/AB-1")) := by rfl

/-- Closed witness for `c1_roundtrip` at a concrete prefix, ticket ID
and summary. -/
theorem c1_roundtrip_witness :
    extractTicketID (formatBranchName goIsLetter goIsDigit (str "feat")
        (str "AB" ++ '-' :: str "12") (str "Fix: the bug!"))
      = .ok (str "AB" ++ '-' :: str "12") :=
  c1_roundtrip goIsLetter goIsDigit (by decide) (by decide) (by decide) (by decide)
    (str "feat") (str "AB") (str "12") (str "Fix: the bug!")
    (by decide) (by decide) (by decide)

/-! ### C2: the `formatBranchName` algorithm -/

/-- Stated from the words of the claim for C2 (split on whitespace): the
summary is split on all whitespace as well as the six punctuation
characters. The source splits only on the space character, so this
definition exists solely to exhibit the divergence. -/
def isSplitCharSpec (c : Char) : Bool :=
  c.isWhitespace || c = ':' || c = '!' || c = '?' || c = ',' || c = ';' || c = '.'

/-- The pipeline of the claim C2, with whitespace splitting (C2 as stated). -/
def formatBranchNameSpecC2 (isL isD : Char → Bool)
    (pfx ticketID summary : List Char) : List Char :=
  let tokens :=
    (((fieldsFunc isSplitCharSpec (summary.map goToLower)).map
        (cleanWord isL isD)).filter (fun w => 1 < utf8Len w)).take 5
  if tokens = [] then pfx ++ '/' :: ticketID
  else pfx ++ '/' :: (ticketID ++ '/' :: joinWith '_' tokens)

/-- The amended split set: the space character (not all whitespace) and
the six punctuation characters. -/
def isSplitCharAmended (c : Char) : Bool :=
  [' ', ':', '!', '?', ',', ';', '.'].contains c

/-- The pipeline of the amended claim for C2: lower-case; split on the space
character and the six punctuation characters; strip non-letter,
non-digit runes from each token; discard cleaned tokens of UTF-8 byte
length at most 1; keep at most the first five; join with `_`; prepend
`{prefix}/{ticketID}` (omitting the slug segment when no token
survives). -/
def formatBranchNameAmended (isL isD : Char → Bool)
    (pfx ticketID summary : List Char) : List Char :=
  let tokens :=
    (((fieldsFunc isSplitCharAmended (summary.map goToLower)).map
        (cleanWord isL isD)).filter (fun w => 1 < utf8Len w)).take 5
  if tokens = [] then pfx ++ '/' :: ticketID
  else pfx ++ '/' :: (ticketID ++ '/' :: joinWith '_' tokens)

/-- C2 counterexample: on the summary `"ab\tcd"` the code keeps the tab
inside a single field (yielding slug `abcd`), while the
whitespace-splitting description of the claim yields `ab_cd`. -/
theorem c2_counterexample :
    goFormatBranchName (str "f") (str "AB-1") (str "ab\tcd") = str "f/AB-1/abcd"
    ∧ formatBranchNameSpecC2 goIsLetter goIsDigit (str "f") (str "AB-1")
        (str "ab\tcd") = str "f/AB-1/ab_cd"
    ∧ goFormatBranchName (str "f") (str "AB-1") (str "ab\tcd")
        ≠ formatBranchNameSpecC2 goIsLetter goIsDigit (str "f") (str "AB-1")
            (str "ab\tcd") :=
  ⟨by rfl, by rfl, by decide⟩

theorem isSplitCharAmended_eq : isSplitCharAmended = isSplitChar := by
  funext c
  simp [isSplitCharAmended, isSplitChar, List.contains, Bool.or_assoc]

/-- The collection loop of the source equals the filter-then-take-five
pipeline, for any accumulator shorter than five tokens. -/
theorem collectCleaned_eq_pipeline (isL isD : Char → Bool)
    (words : List (List Char)) :
    ∀ acc, acc.length < 5 →
      collectCleaned isL isD words acc =
        (acc ++ (words.map (cleanWord isL isD)).filter
          (fun w => 1 < utf8Len w)).take 5 := by
  induction words with
  | nil =>
    intro acc h
    rw [collectCleaned]
    simp [List.take_of_length_le (Nat.le_of_lt h)]
  | cons u rest ih =>
    intro acc h
    rw [collectCleaned]
    by_cases hp : 1 < utf8Len (cleanWord isL isD u)
    · simp only [if_pos hp]
      by_cases hlen : (acc ++ [cleanWord isL isD u]).length = 5
      · rw [if_pos hlen]
        have : acc ++ List.filter (fun w => 1 < utf8Len w)
            (List.map (cleanWord isL isD) (u :: rest))
            = (acc ++ [cleanWord isL isD u]) ++
              List.filter (fun w => 1 < utf8Len w)
                (List.map (cleanWord isL isD) rest) := by
          simp [hp]
        rw [this, ← hlen, List.take_left]
      · rw [if_neg hlen]
        have h5 : (acc ++ [cleanWord isL isD u]).length < 5 := by
          simp only [List.length_append, List.length_singleton] at hlen ⊢
          omega
        rw [ih _ h5]
        simp [hp]
    · simp only [if_neg hp]
      have hne : ¬ acc.length = 5 := by omega
      rw [if_neg hne, ih _ h]
      simp [hp]

/-- C2 (amended): `formatBranchName` is the total function that
lower-cases the summary, splits it on the space character and on
`:`, `!`, `?`, `,`, `;`, `.`, strips every non-letter non-digit rune
from each token, discards cleaned tokens of UTF-8 byte length at most
1, keeps at most the first five surviving tokens, joins them with `_`,
and returns `{prefix}/{ticketID}/{joined}` (or `{prefix}/{ticketID}`
when no token survives). The original claim additionally asserted
splitting on all whitespace, which fails on a tab. -/
theorem c2_format_algorithm (isL isD : Char → Bool)
    (pfx ticketID summary : List Char) :
    formatBranchName isL isD pfx ticketID summary
      = formatBranchNameAmended isL isD pfx ticketID summary := by
  simp only [formatBranchName, formatBranchNameAmended, isSplitCharAmended_eq]
  rw [collectCleaned_eq_pipeline isL isD _ [] (by simp)]
  simp [List.length_eq_zero]

/-! ### C10: `config.MaskToken` -/

/-- Embeds `config.MaskToken`: tokens of length at most 4 become all
asterisks; longer tokens show the first four and last four characters
around a literal `***`. The byte-oriented Go `len` and slicing are
modelled as list length/`take`/`drop` (the configuration tokens are
ASCII). -/
def maskToken (token : List Char) : List Char :=
  if token.length ≤ 4 then List.replicate token.length '*'
  else
    let head := token.take (min 4 token.length)
    let tail := token.drop (max 0 (token.length - 4))
    head ++ str "***" ++ tail

/-- C10 (confirmed): tokens of length at most 4 are fully masked;
longer tokens are rendered `first4 ++ "***" ++ last4`; and for every
token of length 5 through 8 the revealed head and tail overlap enough
that the whole token appears, in order, in the revealed characters. -/
theorem c10_mask_token :
    (∀ t : List Char, t.length ≤ 4 → maskToken t = List.replicate t.length '*')
    ∧ (∀ t : List Char, 4 < t.length →
        maskToken t = t.take 4 ++ str "***" ++ t.drop (t.length - 4))
    ∧ (∀ t : List Char, 5 ≤ t.length → t.length ≤ 8 →
        List.Sublist t (t.take 4 ++ t.drop (t.length - 4))) := by
  refine ⟨fun t h => ?_, fun t h => ?_, fun t h5 h8 => ?_⟩
  · rw [maskToken, if_pos h]
  · rw [maskToken, if_neg (by omega)]
    have h1 : min 4 t.length = 4 := min_eq_left (by omega)
    have h2 : max 0 (t.length - 4) = t.length - 4 := by omega
    simp only [h1, h2]
  · conv_lhs => rw [← List.take_append_drop 4 t]
    refine List.Sublist.append (List.Sublist.refl _) ?_
    have hd : t.drop 4 = List.drop (8 - t.length) (t.drop (t.length - 4)) := by
      rw [List.drop_drop]; congr 1; omega
    rw [hd]
    exact List.drop_sublist _ _

/-- Closed witness for `c10_mask_token` at the test vector of the repository, `"abcdefgh"`. -/
theorem c10_mask_token_witness :
    maskToken (str "abcdefgh") =
      List.take 4 (str "abcdefgh") ++ str "***" ++
        List.drop ((str "abcdefgh").length - 4) (str "abcdefgh") :=
  c10_mask_token.2.1 (str "abcdefgh") (by decide)

/-! ### The orchestrator (`internal/app/commands.go`)

Each handler is embedded as a pure function of an environment record
holding the outcome every external gateway call would produce during
that invocation, and returns the error the handler would return
together with the ordered trace of externally visible effects and the
warning-level messages it prints. Configuration fields that only
parameterize HTTP-client construction (tokens, e-mail, base URL) are
omitted, since they never influence control flow or the recorded
effects. -/

/-- The configuration fields the embedded handlers consult.
`branchPfx` is `Preferences.BranchPrefix` in the source. -/
structure Settings where
  jiraUrl : List Char
  projectKey : List Char
  gitProvider : List Char
  gitOwner : List Char
  gitRepo : List Char
  branchPfx : List Char
  defaultTransition : List Char
deriving DecidableEq, Repr

/-- A Jira ticket as the handlers use it (key, summary, status name). -/
structure JiraTicket where
  key : List Char
  summary : List Char
  statusName : List Char
deriving DecidableEq, Repr

/-- Externally visible effects a handler can perform: issue-tracker
calls (`getTicket`, `updateStatus`, `searchJQL`) and version-control /
code-host mutations (`createBranch`, `push`, `createPR`, `createMR`). -/
inductive Effect where
  | getTicket (ticketID : List Char)
  | updateStatus (ticketID transition : List Char)
  | searchJQL (jql : List Char) (limit : Int)
  | createBranch (name : List Char)
  | push (branch : List Char)
  | createPR (owner repo sourceBranch targetBranch title description : List Char)
  | createMR (projectPath sourceBranch targetBranch title description : List Char)
deriving DecidableEq, Repr

/-- Embeds `strings.Contains(strings.ToUpper(s), strings.ToUpper(sub))`: the
case-insensitive substring test of `handleStart`. -/
def containsCI (s sub : List Char) : Bool :=
  decide (List.IsInfix (sub.map goToUpper) (s.map goToUpper))

/-- The Go `strings.TrimSpace` (ASCII whitespace fragment). -/
def goTrimSpace (s : List Char) : List Char :=
  ((s.dropWhile Char.isWhitespace).reverse.dropWhile Char.isWhitespace).reverse

/-- Embeds `strings.Join` for a string separator. -/
def joinWithList (sep : List Char) : List (List Char) → List Char
  | [] => []
  | [w] => w
  | w :: v :: rest => w ++ sep ++ joinWithList sep (v :: rest)

/-- Embeds `escapeJQL` (commands.go lines 859-861):
`strings.ReplaceAll(value, "\"", "\\\"")` — the pattern is the single
rune `"`, so the replacement prepends a backslash to every quote. -/
def escapeJQL (value : List Char) : List Char :=
  (value.map (fun c => if c = '"' then ['\\', '"'] else [c])).flatten

/-- Environment for one `handleStart` invocation. -/
structure StartEnv where
  loadSettings : Except GoErr Settings
  newGitClient : Except GoErr Unit
  currentBranch : Except GoErr (List Char)
  getTicket : Except GoErr JiraTicket
  createBranch : Except GoErr Unit
  updateStatus : Except GoErr Unit
deriving Repr

/-- Result of a `handleStart` invocation: the returned error, whether
the idempotence guard fired (the "Already on branch" outcome), the
warning-level messages printed, and the effect trace. -/
structure StartResult where
  err : Option GoErr
  alreadyStarted : Bool
  warnings : List GoErr
  effects : List Effect
deriving DecidableEq, Repr

/-- Embeds `handleStart` (commands.go lines 223-285). -/
def handleStart (env : StartEnv) (ticketID : List Char) : StartResult :=
  match env.loadSettings with
  | .error e => ⟨some e, false, [], []⟩
  | .ok settings =>
    match env.newGitClient with
    | .error e => ⟨some e, false, [], []⟩
    | .ok _ =>
      let guard :=
        match env.currentBranch with
        | .ok branch => containsCI branch ticketID
        | .error _ => false
      if guard then ⟨none, true, [], []⟩
      else
        match env.getTicket with
        | .error e => ⟨some e, false, [], [.getTicket ticketID]⟩
        | .ok ticket =>
          let pfx := if settings.branchPfx = [] then str "feat" else settings.branchPfx
          let branchName := goFormatBranchName pfx ticketID ticket.summary
          match env.createBranch with
          | .error e => ⟨some e, false, [], [.getTicket ticketID, .createBranch branchName]⟩
          | .ok _ =>
            if settings.defaultTransition = [] then
              ⟨none, false, [], [.getTicket ticketID, .createBranch branchName]⟩
            else
              match env.updateStatus with
              | .error e =>
                ⟨none, false, [e],
                  [.getTicket ticketID, .createBranch branchName,
                    .updateStatus ticketID settings.defaultTransition]⟩
              | .ok _ =>
                ⟨none, false, [],
                  [.getTicket ticketID, .createBranch branchName,
                    .updateStatus ticketID settings.defaultTransition]⟩

/-- Environment for one `handleDone` invocation. `cleanState` models
`gitClient.IsClean()`; `gitRoot` models `gitClient.Root()`. -/
structure DoneEnv where
  loadSettings : Except GoErr Settings
  newGitClient : Except GoErr Unit
  cleanState : Except GoErr Bool
  currentBranch : Except GoErr (List Char)
  push : Except GoErr Unit
  getTicket : Except GoErr JiraTicket
  createPR : Except GoErr (List Char)
  createMR : Except GoErr (List Char)
  updateStatus : Except GoErr Unit
  gitRoot : List Char
deriving Repr

/-- Result of a `handleDone` invocation. -/
structure DoneResult where
  err : Option GoErr
  warnings : List GoErr
  effects : List Effect
  prUrl : Option (List Char)
deriving DecidableEq, Repr

/-- The Go `path/filepath.Base` for slash-separated paths: drop trailing
slashes, then take the last `/`-separated component. -/
def filepathBase (p : List Char) : List Char :=
  if p = [] then str "."
  else
    let trimmed := (p.reverse.dropWhile (fun c => c = '/')).reverse
    if trimmed = [] then ['/']
    else (goSplit '/' trimmed).getLastD []

/-- Per-rune `strings.ToLower` on a whole string. -/
def goToLowerStr (s : List Char) : List Char := s.map goToLower

/-- Shared tail of `handleDone` after the PR/MR has been created:
attempt the "In Review" transition, demoting its failure to a
warning. -/
def finishDone (env : DoneEnv) (ticketID prUrl : List Char)
    (eff : List Effect) : DoneResult :=
  match env.updateStatus with
  | .error e => ⟨none, [e], eff ++ [.updateStatus ticketID (str "In Review")], some prUrl⟩
  | .ok _ => ⟨none, [], eff ++ [.updateStatus ticketID (str "In Review")], some prUrl⟩

/-- Embeds `handleDone` (commands.go lines 543-629). -/
def handleDone (env : DoneEnv) : DoneResult :=
  match env.loadSettings with
  | .error e => ⟨some e, [], [], none⟩
  | .ok s =>
    match env.newGitClient with
    | .error e => ⟨some e, [], [], none⟩
    | .ok _ =>
      match env.cleanState with
      | .error e => ⟨some e, [], [], none⟩
      | .ok clean =>
        if clean = false then ⟨some .uncommittedChanges, [], [], none⟩
        else
          match env.currentBranch with
          | .error e => ⟨some e, [], [], none⟩
          | .ok branch =>
            match extractTicketID branch with
            | .error e => ⟨some e, [], [], none⟩
            | .ok ticketID =>
              match env.push with
              | .error e => ⟨some e, [], [.push branch], none⟩
              | .ok _ =>
                match env.getTicket with
                | .error e => ⟨some e, [], [.push branch, .getTicket ticketID], none⟩
                | .ok ticket =>
                  let prTitle := ticketID ++ str ": " ++ ticket.summary
                  let prDescription :=
                    str "Resolves " ++ ticketID ++ str "\n\nJira: " ++ s.jiraUrl
                      ++ str "/browse/" ++ ticketID
                  let provider := goToLowerStr s.gitProvider
                  if provider = str "github" then
                    if s.gitOwner = [] ∨ s.gitRepo = [] then
                      ⟨some (.msg (str "GitHub owner/repo not configured")), [],
                        [.push branch, .getTicket ticketID], none⟩
                    else
                      match env.createPR with
                      | .error e =>
                        ⟨some e, [],
                          [.push branch, .getTicket ticketID,
                            .createPR s.gitOwner s.gitRepo branch (str "main")
                              prTitle prDescription], none⟩
                      | .ok u =>
                        finishDone env ticketID u
                          [.push branch, .getTicket ticketID,
                            .createPR s.gitOwner s.gitRepo branch (str "main")
                              prTitle prDescription]
                  else if provider = str "gitlab" then
                    let projectPath := filepathBase env.gitRoot
                    match env.createMR with
                    | .error e =>
                      ⟨some e, [],
                        [.push branch, .getTicket ticketID,
                          .createMR projectPath branch (str "main")
                            prTitle prDescription], none⟩
                    | .ok u =>
                      finishDone env ticketID u
                        [.push branch, .getTicket ticketID,
                          .createMR projectPath branch (str "main")
                            prTitle prDescription]
                  else
                    ⟨some (.msg (str "unsupported git provider: " ++ provider)), [],
                      [.push branch, .getTicket ticketID], none⟩

/-- The flag values of `devflow search` (`searchOptions` in the
source). -/
structure SearchOpts where
  query : List Char
  assignee : List Char
  status : List Char
  project : List Char
  limit : Int
  interactive : Bool
deriving DecidableEq, Repr

/-- The JQL clause list built by `handleSearch` (commands.go lines
382-402): the escaped free-text clause, then the optional project,
assignee and status clauses. The assignee value `me` yields
`assignee = currentUser()`. -/
def searchJQLParts (projectKey : List Char) (opts : SearchOpts) : List (List Char) :=
  let p0 := [str "(summary ~ \"" ++ escapeJQL opts.query
    ++ str "\" OR description ~ \"" ++ escapeJQL opts.query ++ str "\")"]
  let project :=
    if goTrimSpace opts.project = [] then projectKey else goTrimSpace opts.project
  let p1 := if project = [] then p0 else p0 ++ [str "project = " ++ project]
  let p2 :=
    if opts.assignee = [] then p1
    else if opts.assignee = str "me" then p1 ++ [str "assignee = currentUser()"]
    else p1 ++ [str "assignee = \"" ++ opts.assignee ++ str "\""]
  if opts.status = [] then p2
  else p2 ++ [str "status = \"" ++ opts.status ++ str "\""]

/-- The JQL built by `handleList` (commands.go lines 320-333):
anchored on `assignee = currentUser()`, plus the optional project and
status clauses. -/
def listJQL (projectKey statusFilter projectFilter : List Char) : List Char :=
  let project :=
    if goTrimSpace projectFilter = [] then projectKey else goTrimSpace projectFilter
  let p0 := [str "assignee = currentUser()"]
  let p1 := if project = [] then p0 else p0 ++ [str "project = " ++ project]
  let p2 := if statusFilter = [] then p1
    else p1 ++ [str "status = \"" ++ statusFilter ++ str "\""]
  joinWithList (str " AND ") p2

/-- Result of a query handler (`handleList` / `handleSearch`): the
returned error, whether the "Showing N of potentially more results"
truncation notice was printed, and the effect trace. -/
structure QueryResult where
  err : Option GoErr
  truncationNotice : Bool
  effects : List Effect
deriving DecidableEq, Repr

/-- Environment for one `handleList` invocation. -/
structure ListEnv where
  loadSettings : Except GoErr Settings
  search : Except GoErr (List JiraTicket)
deriving Repr

/-- Embeds `handleList` (commands.go lines 312-360). The query is issued with
the fixed ceiling 50; no branch of the source prints a truncation
notice, so `truncationNotice` is false on every path. -/
def handleList (env : ListEnv) (statusFilter projectFilter : List Char)
    (jsonOutput : Bool) : QueryResult :=
  match env.loadSettings with
  | .error e => ⟨some e, false, []⟩
  | .ok s =>
    let jql := listJQL s.projectKey statusFilter projectFilter
    match env.search with
    | .error e => ⟨some e, false, [.searchJQL jql 50]⟩
    | .ok tickets =>
      if jsonOutput then ⟨none, false, [.searchJQL jql 50]⟩
      else if tickets.length = 0 then ⟨none, false, [.searchJQL jql 50]⟩
      else ⟨none, false, [.searchJQL jql 50]⟩

/-- Environment for one `handleSearch` invocation. `selection` models
the interactive `promptSelection` outcome (an index, `-1` for cancel);
`startEnv` is the environment of the nested `handleStart` call made in
interactive mode. -/
structure SearchEnv where
  loadSettings : Except GoErr Settings
  search : Except GoErr (List JiraTicket)
  selection : Except GoErr Int
  startEnv : StartEnv
deriving Repr

/-- Embeds `handleSearch` (commands.go lines 371-448). The truncation notice
is printed exactly when the length of the non-empty result list equals the
requested limit. -/
def handleSearch (env : SearchEnv) (opts : SearchOpts) : QueryResult :=
  match env.loadSettings with
  | .error e => ⟨some e, false, []⟩
  | .ok s =>
    let jql := joinWithList (str " AND ") (searchJQLParts s.projectKey opts)
    match env.search with
    | .error e => ⟨some e, false, [.searchJQL jql opts.limit]⟩
    | .ok tickets =>
      if tickets.length = 0 then ⟨none, false, [.searchJQL jql opts.limit]⟩
      else
        let truncated := decide ((tickets.length : Int) = opts.limit)
        if opts.interactive then
          match env.selection with
          | .error e => ⟨some e, truncated, [.searchJQL jql opts.limit]⟩
          | .ok idx =>
            if 0 ≤ idx then
              let selected := tickets.getD idx.toNat ⟨[], [], []⟩
              let nested := handleStart env.startEnv selected.key
              ⟨nested.err, truncated, .searchJQL jql opts.limit :: nested.effects⟩
            else ⟨none, truncated, [.searchJQL jql opts.limit]⟩
        else ⟨none, truncated, [.searchJQL jql opts.limit]⟩

/-! ### C5, C6, C7, C4: orchestrator properties -/

/-- C5 (confirmed): when the current branch contains the ticket ID
case-insensitively, `handleStart` returns the "already started" outcome
with no error and an empty effect trace: no ticket fetch, no status
transition, no branch creation. -/
theorem c5_idempotence_guard (env : StartEnv) (ticketID b : List Char)
    (s : Settings)
    (hs : env.loadSettings = .ok s)
    (hg : env.newGitClient = .ok ())
    (hb : env.currentBranch = .ok b)
    (hc : containsCI b ticketID = true) :
    handleStart env ticketID = ⟨none, true, [], []⟩ := by
  simp [handleStart, hs, hg, hb, hc]

/-- Environment for the `c5_idempotence_guard` witness: already on the
branch of the ticket; every later gateway call would fail if reached. -/
def c5Env : StartEnv :=
  { loadSettings := .ok ⟨str "J", str "WAB", str "gitlab", [], [], str "feat", str "In Progress"⟩
    newGitClient := .ok ()
    currentBranch := .ok (str "feat/WAB-7/fix_bug")
    getTicket := .error (.msg (str "unreachable"))
    createBranch := .error (.msg (str "unreachable"))
    updateStatus := .error (.msg (str "unreachable")) }

/-- Closed witness for `c5_idempotence_guard`. -/
theorem c5_idempotence_guard_witness :
    handleStart c5Env (str "wab-7") = ⟨none, true, [], []⟩ :=
  c5_idempotence_guard c5Env (str "wab-7") (str "feat/WAB-7/fix_bug")
    ⟨str "J", str "WAB", str "gitlab", [], [], str "feat", str "In Progress"⟩
    rfl rfl rfl (by decide)

/-- C6 (confirmed): when the working tree is not clean, `handleDone`
fails with the dedicated uncommitted-changes error (a distinct error
from any gateway-produced one) and an empty effect trace: no push, no
ticket fetch, no PR/MR creation, no status transition. -/
theorem c6_unclean_tree (env : DoneEnv) (s : Settings)
    (hs : env.loadSettings = .ok s)
    (hg : env.newGitClient = .ok ())
    (hclean : env.cleanState = .ok false) :
    handleDone env = ⟨some .uncommittedChanges, [], [], none⟩ := by
  simp [handleDone, hs, hg, hclean]

/-- Environment for the `c6_unclean_tree` witness: dirty working
tree; every later gateway call would fail if reached. -/
def c6Env : DoneEnv :=
  { loadSettings := .ok ⟨str "J", str "WAB", str "gitlab", [], [], str "feat", str "In Progress"⟩
    newGitClient := .ok ()
    cleanState := .ok false
    currentBranch := .ok (str "feat/WAB-7/fix_bug")
    push := .error (.msg (str "unreachable"))
    getTicket := .error (.msg (str "unreachable"))
    createPR := .error (.msg (str "unreachable"))
    createMR := .error (.msg (str "unreachable"))
    updateStatus := .error (.msg (str "unreachable"))
    gitRoot := str "repo" }

/-- Closed witness for `c6_unclean_tree`. -/
theorem c6_unclean_tree_witness :
    handleDone c6Env = ⟨some .uncommittedChanges, [], [], none⟩ :=
  c6_unclean_tree c6Env
    ⟨str "J", str "WAB", str "gitlab", [], [], str "feat", str "In Progress"⟩
    rfl rfl rfl

/-- C7 (confirmed): every create-PR and every create-MR effect that
`handleDone` can emit, under any environment, uses the literal string
`"main"` as its target branch. -/
theorem c7_target_main (env : DoneEnv) :
    (∀ o r src tgt ti d,
      Effect.createPR o r src tgt ti d ∈ (handleDone env).effects → tgt = str "main")
    ∧ (∀ pp src tgt ti d,
      Effect.createMR pp src tgt ti d ∈ (handleDone env).effects → tgt = str "main") := by
  obtain ⟨ls, gc, cs, cb, pu, gt, cpr, cmr, us, root⟩ := env
  have key : ∀ eff,
      eff ∈ (handleDone ⟨ls, gc, cs, cb, pu, gt, cpr, cmr, us, root⟩).effects →
      (∀ o r src tgt ti d, eff = Effect.createPR o r src tgt ti d → tgt = str "main")
      ∧ (∀ pp src tgt ti d, eff = Effect.createMR pp src tgt ti d → tgt = str "main") := by
    intro eff hmem
    rcases ls with e | s
    · simp [handleDone] at hmem
    · rcases gc with e | ⟨⟩
      · simp [handleDone] at hmem
      · rcases cs with e | clean
        · simp [handleDone] at hmem
        · cases clean
          · simp [handleDone] at hmem
          · rcases cb with e | b
            · simp [handleDone] at hmem
            · rcases hex : extractTicketID b with e | tid
              · simp [handleDone, hex] at hmem
              · rcases pu with e | ⟨⟩
                · simp [handleDone, hex] at hmem
                  refine ⟨fun o r src tgt ti d h => ?_, fun pp src tgt ti d h => ?_⟩ <;>
                    subst h <;> simp_all
                · rcases gt with e | tk
                  · simp [handleDone, hex] at hmem
                    refine ⟨fun o r src tgt ti d h => ?_, fun pp src tgt ti d h => ?_⟩ <;>
                      subst h <;> simp_all
                  · by_cases hpg : goToLowerStr s.gitProvider = str "github"
                    · by_cases how : s.gitOwner = [] ∨ s.gitRepo = []
                      · simp [handleDone, hex, hpg, how] at hmem
                        refine ⟨fun o r src tgt ti d h => ?_, fun pp src tgt ti d h => ?_⟩ <;>
                          subst h <;> simp_all
                      · rcases cpr with e | u
                        · simp [handleDone, hex, hpg, how] at hmem
                          refine ⟨fun o r src tgt ti d h => ?_, fun pp src tgt ti d h => ?_⟩ <;>
                            subst h <;> simp_all
                        · rcases us with e | ⟨⟩
                          · simp [handleDone, finishDone, hex, hpg, how] at hmem
                            refine ⟨fun o r src tgt ti d h => ?_, fun pp src tgt ti d h => ?_⟩ <;>
                              subst h <;> simp_all
                          · simp [handleDone, finishDone, hex, hpg, how] at hmem
                            refine ⟨fun o r src tgt ti d h => ?_, fun pp src tgt ti d h => ?_⟩ <;>
                              subst h <;> simp_all
                    · by_cases hpl : goToLowerStr s.gitProvider = str "gitlab"
                      · rcases cmr with e | u
                        · simp [handleDone, hex, hpg, hpl] at hmem
                          refine ⟨fun o r src tgt ti d h => ?_, fun pp src tgt ti d h => ?_⟩ <;>
                            subst h <;> simp_all
                        · rcases us with e | ⟨⟩
                          · simp [handleDone, finishDone, hex, hpg, hpl] at hmem
                            refine ⟨fun o r src tgt ti d h => ?_, fun pp src tgt ti d h => ?_⟩ <;>
                              subst h <;> simp_all
                          · simp [handleDone, finishDone, hex, hpg, hpl] at hmem
                            refine ⟨fun o r src tgt ti d h => ?_, fun pp src tgt ti d h => ?_⟩ <;>
                              subst h <;> simp_all
                      · simp [handleDone, hex, hpg, hpl] at hmem
                        refine ⟨fun o r src tgt ti d h => ?_, fun pp src tgt ti d h => ?_⟩ <;>
                          subst h <;> simp_all
  constructor
  · intro o r src tgt ti d hmem
    exact (key _ hmem).1 o r src tgt ti d rfl
  · intro pp src tgt ti d hmem
    exact (key _ hmem).2 pp src tgt ti d rfl

/-- Environment for the `c7_target_main` witness: a fully successful
GitLab `done` run. -/
def c7Env : DoneEnv :=
  { loadSettings := .ok ⟨str "J", str "WAB", str "gitlab", [], [], str "feat", str "In Progress"⟩
    newGitClient := .ok ()
    cleanState := .ok true
    currentBranch := .ok (str "feat/AB-1/x")
    push := .ok ()
    getTicket := .ok ⟨str "AB-1", str "S", str "To Do"⟩
    createPR := .error (.msg (str "unreachable"))
    createMR := .ok (str "https://mr/1")
    updateStatus := .ok ()
    gitRoot := str "repo" }

/-- Closed witness for `c7_target_main`: in a successful GitLab run the
emitted create-MR effect indeed targets `main`. -/
theorem c7_target_main_witness : str "main" = str "main" :=
  (c7_target_main c7Env).2 (str "repo") (str "feat/AB-1/x") (str "main")
    (str "AB-1: S") (str "Resolves AB-1\n\nJira: J/browse/AB-1") (by decide)

/-- C4 (confirmed): in both `start` and `done`, when every step before
the tracker transition succeeds and the transition fails, the failure
is surfaced as a warning and the workflow returns no error. -/
theorem c4_soft_transition_warning :
    (∀ (env : StartEnv) (ticketID : List Char) (s : Settings)
        (tk : JiraTicket) (e : GoErr),
      env.loadSettings = .ok s →
      env.newGitClient = .ok () →
      (∀ b, env.currentBranch = .ok b → containsCI b ticketID = false) →
      env.getTicket = .ok tk →
      env.createBranch = .ok () →
      s.defaultTransition ≠ [] →
      env.updateStatus = .error e →
      (handleStart env ticketID).err = none
        ∧ (handleStart env ticketID).warnings = [e])
    ∧ (∀ (env : DoneEnv) (s : Settings) (b tid u : List Char)
        (tk : JiraTicket) (e : GoErr),
      env.loadSettings = .ok s →
      env.newGitClient = .ok () →
      env.cleanState = .ok true →
      env.currentBranch = .ok b →
      extractTicketID b = .ok tid →
      env.push = .ok () →
      env.getTicket = .ok tk →
      ((goToLowerStr s.gitProvider = str "github"
          ∧ ¬ (s.gitOwner = [] ∨ s.gitRepo = []) ∧ env.createPR = .ok u)
        ∨ (goToLowerStr s.gitProvider = str "gitlab" ∧ env.createMR = .ok u)) →
      env.updateStatus = .error e →
      (handleDone env).err = none ∧ (handleDone env).warnings = [e]) := by
  constructor
  · intro env ticketID s tk e hs hg hnb hgt hcbr hdt hus
    have hguard : (match env.currentBranch with
        | .ok branch => containsCI branch ticketID
        | .error _ => false) = false := by
      cases hb : env.currentBranch with
      | error e2 => rfl
      | ok b => exact hnb b hb
    simp [handleStart, hs, hg, hguard, hgt, hcbr, hdt, hus]
  · intro env s b tid u tk e hs hg hclean hcb hex hpush hgt hdisp hus
    rcases hdisp with ⟨hprov, hor, hcpr⟩ | ⟨hprov, hcmr⟩
    · simp [handleDone, hs, hg, hclean, hcb, hex, hpush, hgt, hprov, hor,
        hcpr, finishDone, hus]
    · have hng : ¬ ((str "gitlab" : List Char) = str "github") := by decide
      simp [handleDone, hs, hg, hclean, hcb, hex, hpush, hgt, hprov, hng,
        hcmr, finishDone, hus]

/-- Environment for the `start` half of the `c4` witness: all steps
succeed except the status transition. -/
def c4StartEnv : StartEnv :=
  { loadSettings := .ok ⟨str "J", str "WAB", str "gitlab", [], [], str "feat", str "In Progress"⟩
    newGitClient := .ok ()
    currentBranch := .ok (str "main")
    getTicket := .ok ⟨str "WAB-7", str "S", str "To Do"⟩
    createBranch := .ok ()
    updateStatus := .error (.msg (str "transition not found")) }

/-- Environment for the `done` half of the `c4` witness: all steps
succeed except the status transition. -/
def c4DoneEnv : DoneEnv :=
  { loadSettings := .ok ⟨str "J", str "WAB", str "gitlab", [], [], str "feat", str "In Progress"⟩
    newGitClient := .ok ()
    cleanState := .ok true
    currentBranch := .ok (str "feat/AB-1/x")
    push := .ok ()
    getTicket := .ok ⟨str "AB-1", str "S", str "To Do"⟩
    createPR := .error (.msg (str "unreachable"))
    createMR := .ok (str "https://mr/1")
    updateStatus := .error (.msg (str "transition not found"))
    gitRoot := str "repo" }

/-- Closed witness for `c4_soft_transition_warning` on both
workflows. -/
theorem c4_soft_transition_warning_witness :
    ((handleStart c4StartEnv (str "WAB-7")).err = none
      ∧ (handleStart c4StartEnv (str "WAB-7")).warnings
          = [.msg (str "transition not found")])
    ∧ (handleDone c4DoneEnv).err = none
    ∧ (handleDone c4DoneEnv).warnings = [.msg (str "transition not found")] :=
  ⟨c4_soft_transition_warning.1 c4StartEnv (str "WAB-7")
      ⟨str "J", str "WAB", str "gitlab", [], [], str "feat", str "In Progress"⟩
      ⟨str "WAB-7", str "S", str "To Do"⟩ (.msg (str "transition not found"))
      rfl rfl (fun b h => by injection h with h2; rw [← h2]; decide)
      rfl rfl (by decide) rfl,
    c4_soft_transition_warning.2 c4DoneEnv
      ⟨str "J", str "WAB", str "gitlab", [], [], str "feat", str "In Progress"⟩
      (str "feat/AB-1/x") (str "AB-1") (str "https://mr/1")
      ⟨str "AB-1", str "S", str "To Do"⟩ (.msg (str "transition not found"))
      rfl rfl rfl rfl (by rfl) rfl rfl (Or.inr ⟨by decide, rfl⟩) rfl⟩

/-! ### C3: result ceilings and truncation signalling -/

/-- C3 (amended): every query is issued with a result-count ceiling
(the `--limit` flag for search, the fixed 50 for list). The search
operation signals truncation exactly when a successful, non-empty
result list has length equal to the ceiling, in every mode
(interactive or not); the signal is not an error — the returned error
outcome of search is independent of the ceiling. The list operation
issues its query with ceiling 50 but never signals truncation. The
original claim asserted the truncation signal for both operations. -/
theorem c3_truncation :
    (∀ (env : SearchEnv) (opts : SearchOpts) (s : Settings)
        (tickets : List JiraTicket),
      env.loadSettings = .ok s →
      env.search = .ok tickets →
      tickets.length ≠ 0 →
      ((handleSearch env opts).truncationNotice = true
        ↔ (tickets.length : Int) = opts.limit))
    ∧ (∀ (env : SearchEnv) (opts : SearchOpts) (l1 l2 : Int),
      (handleSearch env { opts with limit := l1 }).err
        = (handleSearch env { opts with limit := l2 }).err)
    ∧ (∀ (env : ListEnv) (statusFilter projectFilter : List Char)
        (jsonOutput : Bool) (s : Settings) (tickets : List JiraTicket),
      env.loadSettings = .ok s →
      env.search = .ok tickets →
      (handleList env statusFilter projectFilter jsonOutput).truncationNotice = false
        ∧ (handleList env statusFilter projectFilter jsonOutput).err = none
        ∧ (handleList env statusFilter projectFilter jsonOutput).effects
            = [.searchJQL (listJQL s.projectKey statusFilter projectFilter) 50]) := by
  refine ⟨?_, ?_, ?_⟩
  · intro env opts s tickets hs hsearch hlen
    cases hint : opts.interactive
    · simp [handleSearch, hs, hsearch, hlen, hint]
    · rcases hsel : env.selection with e | idx
      · simp [handleSearch, hs, hsearch, hlen, hint, hsel]
      · by_cases hidx : (0 : Int) ≤ idx
        · simp [handleSearch, hs, hsearch, hlen, hint, hsel, hidx]
        · simp [handleSearch, hs, hsearch, hlen, hint, hsel, hidx]
  · intro env opts l1 l2
    rcases hls : env.loadSettings with e | s
    · simp [handleSearch, hls]
    · rcases hse : env.search with e | tickets
      · simp [handleSearch, hls, hse]
      · by_cases h0 : tickets.length = 0
        · simp [handleSearch, hls, hse, h0]
        · cases hint : opts.interactive
          · simp [handleSearch, hls, hse, h0, hint]
          · rcases hsel : env.selection with e | idx
            · simp [handleSearch, hls, hse, h0, hint, hsel]
            · by_cases hidx : (0 : Int) ≤ idx
              · simp [handleSearch, hls, hse, h0, hint, hsel, hidx]
              · simp [handleSearch, hls, hse, h0, hint, hsel, hidx]
  · intro env sf pf jo s tickets hs hsearch
    cases jo <;> by_cases h0 : tickets.length = 0 <;>
      simp [handleList, hs, hsearch, h0]

/-- A fixed ticket for the C3 counterexample. -/
def c3Ticket : JiraTicket := ⟨str "P-1", str "t", str "To Do"⟩

/-- Environment for the C3 counterexample: the list query returns
exactly 50 tickets, which is the own ceiling of the list operation. -/
def c3ListCex : ListEnv :=
  { loadSettings := .ok ⟨str "J", str "P", str "gitlab", [], [], str "feat", []⟩
    search := .ok (List.replicate 50 c3Ticket) }

/-- C3 counterexample: the list operation queries with ceiling 50 and
receives exactly 50 results, yet prints no truncation signal, so the
clause "produced for every query operation" of the claim is false for `list`. -/
theorem c3_counterexample :
    (handleList c3ListCex [] [] false).effects
        = [.searchJQL (listJQL (str "P") [] []) 50]
    ∧ (List.replicate 50 c3Ticket).length = 50
    ∧ (handleList c3ListCex [] [] false).err = none
    ∧ (handleList c3ListCex [] [] false).truncationNotice = false :=
  ⟨rfl, by simp, rfl, rfl⟩

/-- Environment for the `c3_truncation` witness: a search with limit 2
returning exactly 2 tickets. -/
def c3SearchEnv : SearchEnv :=
  { loadSettings := .ok ⟨str "J", str "P", str "gitlab", [], [], str "feat", []⟩
    search := .ok [⟨str "P-1", str "a", str "To Do"⟩, ⟨str "P-2", str "b", str "To Do"⟩]
    selection := .ok (-1)
    startEnv :=
      { loadSettings := .error (.msg (str "unreachable"))
        newGitClient := .error (.msg (str "unreachable"))
        currentBranch := .error (.msg (str "unreachable"))
        getTicket := .error (.msg (str "unreachable"))
        createBranch := .error (.msg (str "unreachable"))
        updateStatus := .error (.msg (str "unreachable")) } }

/-- The search options of the `c3_truncation` witness. -/
def c3SearchOpts : SearchOpts := ⟨str "q", [], [], [], 2, false⟩

/-- Closed witness for `c3_truncation`: with limit 2 and 2 results the
notice is shown, and changing the ceiling never changes the error
outcome. -/
theorem c3_truncation_witness :
    (handleSearch c3SearchEnv c3SearchOpts).truncationNotice = true
    ∧ (handleSearch c3SearchEnv { c3SearchOpts with limit := 2 }).err
        = (handleSearch c3SearchEnv { c3SearchOpts with limit := 3 }).err :=
  ⟨(c3_truncation.1 c3SearchEnv c3SearchOpts
      ⟨str "J", str "P", str "gitlab", [], [], str "feat", []⟩
      [⟨str "P-1", str "a", str "To Do"⟩, ⟨str "P-2", str "b", str "To Do"⟩]
      rfl rfl (by decide)).mpr (by decide),
    c3_truncation.2.1 c3SearchEnv c3SearchOpts 2 3⟩

/-! ### C9: JQL construction and escaping -/

theorem escapeJQL_cons (c : Char) (q : List Char) :
    escapeJQL (c :: q) = (if c = '"' then ['\\', '"'] else [c]) ++ escapeJQL q := by
  simp [escapeJQL]

theorem ne_of_head (a b : Char) (l m : List Char) (h : ¬ a = b) :
    ¬ (a :: l = b :: m) := by
  intro h2
  injection h2 with h3 h4
  exact h h3

/-- Every clause produced by `searchJQLParts` under the `me` assignee
is the free-text clause, a project clause, the current-user clause, or
a status clause — never a literal `assignee = "me"`. -/
theorem searchJQLParts_me_shape (pk : List Char) (opts : SearchOpts)
    (ha : opts.assignee = str "me") :
    ∀ x ∈ searchJQLParts pk opts,
      x = str "(summary ~ \"" ++ escapeJQL opts.query ++ str "\" OR description ~ \""
            ++ escapeJQL opts.query ++ str "\")"
      ∨ (∃ proj, x = str "project = " ++ proj)
      ∨ x = str "assignee = currentUser()"
      ∨ x = str "status = \"" ++ opts.status ++ str "\"" := by
  intro x hx
  have hne : ¬ ((str "me" : List Char) = []) := by decide
  by_cases h1 : (if goTrimSpace opts.project = [] then pk else goTrimSpace opts.project) = []
  · by_cases h2 : opts.status = []
    · simp [searchJQLParts, ha, hne, h1, h2] at hx
      rcases hx with rfl | rfl
      · exact Or.inl (by simp)
      · exact Or.inr (Or.inr (Or.inl rfl))
    · simp [searchJQLParts, ha, hne, h1, h2] at hx
      rcases hx with rfl | rfl | rfl
      · exact Or.inl (by simp)
      · exact Or.inr (Or.inr (Or.inl rfl))
      · exact Or.inr (Or.inr (Or.inr (by simp)))
  · by_cases h2 : opts.status = []
    · simp [searchJQLParts, ha, hne, h1, h2] at hx
      rcases hx with rfl | rfl | rfl
      · exact Or.inl (by simp)
      · exact Or.inr (Or.inl ⟨_, rfl⟩)
      · exact Or.inr (Or.inr (Or.inl rfl))
    · simp [searchJQLParts, ha, hne, h1, h2] at hx
      rcases hx with rfl | rfl | rfl | rfl
      · exact Or.inl (by simp)
      · exact Or.inr (Or.inl ⟨_, rfl⟩)
      · exact Or.inr (Or.inr (Or.inl rfl))
      · exact Or.inr (Or.inr (Or.inr (by simp)))

/-- C9 (confirmed): the assignee value `me` yields the
`assignee = currentUser()` clause and never the literal
`assignee = "me"`; the free-text clause is built from the escaped
query; and in the escaped query every `"` is immediately preceded by a
backslash. -/
theorem c9_jql_me_and_escaping :
    (∀ (pk : List Char) (opts : SearchOpts), opts.assignee = str "me" →
      (str "assignee = currentUser()") ∈ searchJQLParts pk opts
      ∧ (str "assignee = \"me\"") ∉ searchJQLParts pk opts)
    ∧ (∀ (pk : List Char) (opts : SearchOpts),
        (searchJQLParts pk opts).headD []
          = str "(summary ~ \"" ++ escapeJQL opts.query
              ++ str "\" OR description ~ \"" ++ escapeJQL opts.query ++ str "\")")
    ∧ (∀ (q : List Char) (i : Nat),
        (escapeJQL q).getD i ' ' = '"' →
          1 ≤ i ∧ (escapeJQL q).getD (i - 1) ' ' = '\\') := by
  refine ⟨fun pk opts ha => ⟨?_, ?_⟩, fun pk opts => ?_, fun q => ?_⟩
  · have hne : ¬ ((str "me" : List Char) = []) := by decide
    by_cases h1 : (if goTrimSpace opts.project = [] then pk
        else goTrimSpace opts.project) = [] <;>
      by_cases h2 : opts.status = [] <;>
      simp [searchJQLParts, ha, hne, h1, h2]
  · intro hmem
    rcases searchJQLParts_me_shape pk opts ha _ hmem with h | ⟨proj, h⟩ | h | h
    · exact ne_of_head 'a' '(' _ _ (by decide) h
    · exact ne_of_head 'a' 'p' _ _ (by decide) h
    · exact absurd h (by decide)
    · exact ne_of_head 'a' 's' _ _ (by decide) h
  · have hme : ¬ ((str "me" : List Char) = []) := by decide
    by_cases h1 : (if goTrimSpace opts.project = [] then pk
        else goTrimSpace opts.project) = [] <;>
      by_cases h2 : opts.status = [] <;>
      by_cases h3 : opts.assignee = [] <;>
      by_cases h4 : opts.assignee = str "me" <;>
      simp [searchJQLParts, h1, h2, h3, h4, hme]
  · induction q with
    | nil =>
      intro i hi
      rw [show escapeJQL [] = [] from rfl, List.getD_nil] at hi
      exact absurd hi (by decide)
    | cons c q ih =>
      intro i hi
      rw [escapeJQL_cons] at hi ⊢
      by_cases hc : c = '"'
      · rw [if_pos hc] at hi ⊢
        rcases i with _ | i1
        · exact absurd (show ('\\' : Char) = '"' from hi) (by decide)
        · rcases i1 with _ | j
          · exact ⟨le_refl 1, rfl⟩
          · obtain ⟨h1, h2⟩ := ih j hi
            obtain ⟨k, rfl⟩ : ∃ k, j = k + 1 := ⟨j - 1, by omega⟩
            exact ⟨by omega, h2⟩
      · rw [if_neg hc] at hi ⊢
        rcases i with _ | j
        · exact absurd hi hc
        · obtain ⟨h1, h2⟩ := ih j hi
          obtain ⟨k, rfl⟩ : ∃ k, j = k + 1 := ⟨j - 1, by omega⟩
          exact ⟨by omega, h2⟩

/-- Closed witness for `c9_jql_me_and_escaping`: the `me` clause at a
concrete option record, and the escaped quote inside `a"b`. -/
theorem c9_jql_me_and_escaping_witness :
    ((str "assignee = currentUser()")
        ∈ searchJQLParts (str "P") ⟨str "q", str "me", [], [], 10, false⟩
      ∧ (str "assignee = \"me\"")
          ∉ searchJQLParts (str "P") ⟨str "q", str "me", [], [], 10, false⟩)
    ∧ (1 ≤ 2 ∧ (escapeJQL (str "a\"b")).getD (2 - 1) ' ' = '\\') :=
  ⟨c9_jql_me_and_escaping.1 (str "P") ⟨str "q", str "me", [], [], 10, false⟩ rfl,
    c9_jql_me_and_escaping.2.2 (str "a\"b") 2 (by rfl)⟩

end Devflow
